import Mathlib

/-!
Shallow embedding of the Rust101 rendering engines (path_tracing and
ray_marching / ray_marching_wgpu crates) and verification of the frozen
claims about them.

Modelling conventions:
* Machine floats (f32/f64) are embedded as exact rationals `ℚ`.  Float
  constants that the code branches on are kept exact: `f64::EPSILON = 2^-52`,
  `f32::MAX = (2^24 - 1) * 2^104`, `f64::MAX = (2^53 - 1) * 2^971`.
* Square roots are not representable in `ℚ`.  The source uses them in two
  places that the claims touch: `Vector3f::normalize` (a positive rescaling
  of the vector, affecting no comparison sign) and the probability draws
  `sqrt(u)` (a monotone reparametrisation of the uniform draw).  Both are
  handled by a documented, sign/branch-preserving encoding at the spot.
* RNG draws (`Math::sample_uniform_distribution`) are passed in explicitly
  as function arguments, making the sampling routines deterministic
  functions of the random tape.
* Rust panics / `unwrap` on `None` are modelled by `Option`-valued results
  (`none` = the program dies), and unbounded recursion by an explicit fuel
  argument.
-/

set_option maxRecDepth 4000

/-- Exact value of `f64::EPSILON` (2.220446049250313e-16). -/
def f64Epsilon : ℚ := 1 / 2 ^ 52

/-- Exact value of `f32::MAX`, the sentinel stored in `Intersection::new`
(`distance: f32::MAX`). -/
def f32Max : ℚ := (2 ^ 24 - 1) * 2 ^ 104

/-- Exact value of `f64::MAX`, the sentinel stored in `HitResult::new`
(`distance: f64::MAX`). -/
def f64Max : ℚ := (2 ^ 53 - 1) * 2 ^ 971

/-- `Vector3f` from `path_tracing/src/math/vector.rs` (and the analogous
vector type of the ray marchers): three scalar components. -/
structure Vec3 where
  x : ℚ
  y : ℚ
  z : ℚ
deriving DecidableEq, Repr

namespace Vec3

def zero : Vec3 := ⟨0, 0, 0⟩

def add (a b : Vec3) : Vec3 := ⟨a.x + b.x, a.y + b.y, a.z + b.z⟩

def sub (a b : Vec3) : Vec3 := ⟨a.x - b.x, a.y - b.y, a.z - b.z⟩

def neg (a : Vec3) : Vec3 := ⟨-a.x, -a.y, -a.z⟩

/-- Scalar multiplication (`impl Mul<T> for Vector3f`). -/
def smul (a : Vec3) (s : ℚ) : Vec3 := ⟨a.x * s, a.y * s, a.z * s⟩

/-- Componentwise product (`impl Mul for &Vector3f`), used by the AABB
slab test. -/
def hmul (a b : Vec3) : Vec3 := ⟨a.x * b.x, a.y * b.y, a.z * b.z⟩

def dot (a b : Vec3) : ℚ := a.x * b.x + a.y * b.y + a.z * b.z

def cross (a b : Vec3) : Vec3 :=
  ⟨a.y * b.z - a.z * b.y, a.z * b.x - a.x * b.z, a.x * b.y - a.y * b.x⟩

/-- Componentwise minimum (`Vector3f::min`). -/
def vmin (a b : Vec3) : Vec3 := ⟨min a.x b.x, min a.y b.y, min a.z b.z⟩

/-- Componentwise maximum (`Vector3f::max`). -/
def vmax (a b : Vec3) : Vec3 := ⟨max a.x b.x, max a.y b.y, max a.z b.z⟩

/-- Squared Euclidean length.  The source computes `length()` as the square
root of this; the embedding keeps the square, and every use below encodes
the original comparison equivalently on squares. -/
def sqLength (a : Vec3) : ℚ := a.x * a.x + a.y * a.y + a.z * a.z

end Vec3

/-- `LitMaterial` from `path_tracing/src/material/material.rs`: the
Lambertian material variant with an albedo and an emission colour. -/
structure Material where
  albedo : Vec3
  emission : Vec3
deriving DecidableEq, Repr

/-- `LitMaterial::has_emission`: the source tests
`emission.length() > f64::EPSILON`; since both sides are nonnegative this
is equivalent to the square test used here, which stays inside `ℚ`. -/
def Material.hasEmission (m : Material) : Bool :=
  m.emission.sqLength > f64Epsilon * f64Epsilon

/-- `LitMaterial::get_emission`. -/
def Material.getEmission (m : Material) : Vec3 := m.emission

/-- `Ray` from `path_tracing/src/domain/domain.rs`.  The fields `t`,
`t_min`, `t_max` exist in the source but are never read by any routine a
claim is about, so they are omitted. -/
structure Ray where
  origin : Vec3
  direction : Vec3
deriving DecidableEq, Repr

/-- `Ray::eval`: `origin + direction * t`. -/
def Ray.eval (r : Ray) (t : ℚ) : Vec3 := r.origin.add (r.direction.smul t)

/-- `Intersection` from `path_tracing/src/domain/domain.rs`.  The owning
primitive (`obj: Option<Arc<dyn Object>>`, registered through the global
triangle table) is modelled by a stable integer handle. -/
structure Intersection where
  hit : Bool
  coords : Vec3
  tcoords : Vec3
  normal : Vec3
  emit : Vec3
  distance : ℚ
  obj : Option ℕ
  material : Option Material
deriving DecidableEq, Repr

/-- `Intersection::new`: the all-sentinel miss value; the source stores
`distance: f32::MAX`. -/
def Intersection.new : Intersection :=
  { hit := false
    coords := Vec3.zero
    tcoords := Vec3.zero
    normal := Vec3.zero
    emit := Vec3.zero
    distance := f32Max
    obj := none
    material := none }

/-- `Axis` from `path_tracing/src/domain/domain.rs`. -/
inductive Axis where
  | X
  | Y
  | Z
  | Nil
deriving DecidableEq, Repr

/-- `Bounds3` from `path_tracing/src/bvh/bounds.rs`. -/
structure Bounds3 where
  pMin : Vec3
  pMax : Vec3
deriving DecidableEq, Repr

namespace Bounds3

/-- `Bounds3::zero`. -/
def zero : Bounds3 := ⟨Vec3.zero, Vec3.zero⟩

/-- `Bounds3::from_points`. -/
def fromPoints (p1 p2 : Vec3) : Bounds3 := ⟨Vec3.vmin p1 p2, Vec3.vmax p1 p2⟩

/-- `Bounds3::union` (the source mutates `self`; the embedding returns the
updated box). -/
def union (a b : Bounds3) : Bounds3 :=
  ⟨Vec3.vmin a.pMin b.pMin, Vec3.vmax a.pMax b.pMax⟩

/-- `Bounds3::union_point`. -/
def unionPoint (a : Bounds3) (p : Vec3) : Bounds3 :=
  ⟨Vec3.vmin a.pMin p, Vec3.vmax a.pMax p⟩

/-- `Bounds3::union2`. -/
def union2 (a b : Bounds3) : Bounds3 :=
  ⟨Vec3.vmin a.pMin b.pMin, Vec3.vmax a.pMax b.pMax⟩

/-- `Bounds3::center`. -/
def center (b : Bounds3) : Vec3 := (b.pMin.smul (1/2)).add (b.pMax.smul (1/2))

/-- `Bounds3::diagonal`. -/
def diagonal (b : Bounds3) : Vec3 := b.pMax.sub b.pMin

/-- `Bounds3::max_extent_axis`: note both comparisons are strict, so an
X-versus-Y tie falls through to the second branch. -/
def maxExtentAxis (b : Bounds3) : Axis :=
  if b.diagonal.x > b.diagonal.y ∧ b.diagonal.x > b.diagonal.z then Axis.X
  else if b.diagonal.y > b.diagonal.z then Axis.Y
  else Axis.Z

/-- The `inv_dir` vector of `Bounds3::intersect`: every reciprocal is taken
of `direction_i + f64::EPSILON`; there is no parallel-axis guard. -/
def invDir (ray : Ray) : Vec3 :=
  ⟨1 / (ray.direction.x + f64Epsilon),
   1 / (ray.direction.y + f64Epsilon),
   1 / (ray.direction.z + f64Epsilon)⟩

/-- The `t_min` vector of `Bounds3::intersect`: `(p_min - origin) * inv_dir`. -/
def tMinV (b : Bounds3) (ray : Ray) : Vec3 := (b.pMin.sub ray.origin).hmul (invDir ray)

/-- The `t_max` vector of `Bounds3::intersect`: `(p_max - origin) * inv_dir`. -/
def tMaxV (b : Bounds3) (ray : Ray) : Vec3 := (b.pMax.sub ray.origin).hmul (invDir ray)

/-- `t_enter` of `Bounds3::intersect`: per-axis entry selected by the sign
of the direction component (`is_dir_neg[i] = direction_i >= 0` picks
`t_min`), then the maximum over the three axes. -/
def tEnter (b : Bounds3) (ray : Ray) : ℚ :=
  max (if ray.direction.x ≥ 0 then (tMinV b ray).x else (tMaxV b ray).x)
    (max (if ray.direction.y ≥ 0 then (tMinV b ray).y else (tMaxV b ray).y)
      (if ray.direction.z ≥ 0 then (tMinV b ray).z else (tMaxV b ray).z))

/-- `t_exit` of `Bounds3::intersect`: per-axis exit (the complementary
selection), then the minimum over the three axes. -/
def tExit (b : Bounds3) (ray : Ray) : ℚ :=
  min (if ray.direction.x ≥ 0 then (tMaxV b ray).x else (tMinV b ray).x)
    (min (if ray.direction.y ≥ 0 then (tMaxV b ray).y else (tMinV b ray).y)
      (if ray.direction.z ≥ 0 then (tMaxV b ray).z else (tMinV b ray).z))

/-- `Bounds3::intersect`, the slab test as actually written: the final
acceptance test is `t_exit >= t_enter && t_exit >= 0.0`. -/
def intersect (b : Bounds3) (ray : Ray) : Bool :=
  tExit b ray ≥ tEnter b ray ∧ tExit b ray ≥ 0

end Bounds3

/-- The `Object` trait from `path_tracing/src/mesh/object.rs`, embedded as
a record of the four methods the BVH consumes (`get_bounds`, `get_area`,
`intersect`, `sample`).  `sample` draws two uniforms in the source; here
they are passed explicitly, the first one already in square-root form (the
source computes `x = sqrt(u1)`, and `u1 ↦ sqrt(u1)` is a monotone bijection
of `[0,1]`, so quantifying over the passed value `sx ∈ [0,1]` covers
exactly the draws the source can make). -/
structure Object where
  getBounds : Bounds3
  getArea : ℚ
  intersect : Ray → Intersection
  sample : ℚ → ℚ → Intersection × ℚ

/-- `Triangle` from `path_tracing/src/mesh/triangle.rs`.  The global
`TRIANGLE_TABLE` handle is the `id` field.  `area = |e1 × e2| / 2` is
computed with a square root in the source and therefore stored here as a
constructor argument; every concrete triangle below has an axis-aligned
cross product, for which the stored value is the exact Euclidean norm. -/
structure Triangle where
  id : ℕ
  v0 : Vec3
  v1 : Vec3
  v2 : Vec3
  area : ℚ
  material : Material

/-- Cached edge `e1 = v1 - v0`. -/
def Triangle.e1 (t : Triangle) : Vec3 := t.v1.sub t.v0

/-- Cached edge `e2 = v2 - v0`. -/
def Triangle.e2 (t : Triangle) : Vec3 := t.v2.sub t.v0

/-- Cached face normal.  The source stores `e1.cross(e2).normalize()`;
normalisation divides by the (irrational) Euclidean length, a positive
scalar, so the unnormalised cross product is stored instead.  The only
comparison involving the normal in the embedded routines is the sign test
`ray.direction.dot(normal) > 0`, which a positive rescaling preserves. -/
def Triangle.normal (t : Triangle) : Vec3 := t.e1.cross t.e2

/-- `Triangle::get_bounds`: box of `v0`,`v1` unioned with the point `v2`. -/
def Triangle.getBounds (t : Triangle) : Bounds3 :=
  (Bounds3.fromPoints t.v0 t.v1).unionPoint t.v2

/-- The `pvec` of Möller–Trumbore: `ray.direction × e2`. -/
def Triangle.pvecMT (t : Triangle) (ray : Ray) : Vec3 := ray.direction.cross t.e2

/-- The determinant of Möller–Trumbore: `e1 · pvec`. -/
def Triangle.detMT (t : Triangle) (ray : Ray) : ℚ := t.e1.dot (t.pvecMT ray)

/-- The `tvec` of Möller–Trumbore: `origin - v0`. -/
def Triangle.tvecMT (t : Triangle) (ray : Ray) : Vec3 := ray.origin.sub t.v0

/-- The barycentric `u` of Möller–Trumbore: `(tvec · pvec) / det`. -/
def Triangle.uMT (t : Triangle) (ray : Ray) : ℚ :=
  (t.tvecMT ray).dot (t.pvecMT ray) * (1 / t.detMT ray)

/-- The `qvec` of Möller–Trumbore: `tvec × e1`. -/
def Triangle.qvecMT (t : Triangle) (ray : Ray) : Vec3 := (t.tvecMT ray).cross t.e1

/-- The barycentric `v` of Möller–Trumbore: `(direction · qvec) / det`. -/
def Triangle.vMT (t : Triangle) (ray : Ray) : ℚ :=
  ray.direction.dot (t.qvecMT ray) * (1 / t.detMT ray)

/-- The ray parameter of Möller–Trumbore: `(e2 · qvec) / det`. -/
def Triangle.tMT (t : Triangle) (ray : Ray) : ℚ :=
  t.e2.dot (t.qvecMT ray) * (1 / t.detMT ray)

/-- The hit record `Triangle::intersect` builds on success: distance `t`,
point `o + t*d`, the cached face normal, material and owning handle set. -/
def Triangle.hitRecord (t : Triangle) (ray : Ray) : Intersection :=
  { Intersection.new with
      hit := true
      coords := ray.origin.add (ray.direction.smul (t.tMT ray))
      normal := t.normal
      distance := t.tMT ray
      material := some t.material
      obj := some t.id }

/-- `Triangle::intersect` (Möller–Trumbore with backface culling), exactly
as in `path_tracing/src/mesh/triangle.rs`: the source computes `pvec`,
`det`, `u`, `qvec`, `v`, `t` in sequence between the guards; the embedded
guards test the identical values (division in `ℚ` is total, so hoisting
the definitions above the `|det|` guard changes no branch). -/
def Triangle.intersect (t : Triangle) (ray : Ray) : Intersection :=
  if ray.direction.dot t.normal > 0 then Intersection.new
  else if |t.detMT ray| < f64Epsilon then Intersection.new
  else if t.uMT ray < 0 ∨ t.uMT ray > 1 then Intersection.new
  else if t.vMT ray < 0 ∨ t.uMT ray + t.vMT ray > 1 then Intersection.new
  else if t.tMT ray > 0 then t.hitRecord ray
  else Intersection.new

/-- `Triangle::sample`: `sx` stands for the `sqrt(u1)` the source computes
from its first uniform draw, `y` for the second draw.  Note the source
leaves `hit`, `distance` and the handles at their `Intersection::new`
values. -/
def Triangle.sample (t : Triangle) (sx y : ℚ) : Intersection × ℚ :=
  ({ Intersection.new with
      coords := ((t.v0.smul (1 - sx)).add (t.v1.smul (sx * (1 - y)))).add
        (t.v2.smul (sx * y))
      normal := t.normal },
   1 / t.area)

/-- The `Arc<dyn Object>` view of a triangle. -/
def Triangle.toObject (t : Triangle) : Object :=
  { getBounds := t.getBounds
    getArea := t.area
    intersect := t.intersect
    sample := t.sample }

/-- The in-memory shape of a built `BVHNode`
(`path_tracing/src/bvh/bvh.rs`): a leaf holds exactly one primitive, an
interior node exactly two children; both cache `bounds` and `area`.  The
source struct has `Option` children plus an `Option` object with exactly
this invariant (`build_recursively` fills either both children or the
object); the inductive bakes the invariant in. -/
inductive BVHTree where
  | leaf (bounds : Bounds3) (area : ℚ) (obj : Object)
  | node (bounds : Bounds3) (area : ℚ) (left right : BVHTree)

/-- Cached bounds of a node. -/
def BVHTree.bounds : BVHTree → Bounds3
  | .leaf b _ _ => b
  | .node b _ _ _ => b

/-- Cached area of a node. -/
def BVHTree.area : BVHTree → ℚ
  | .leaf _ a _ => a
  | .node _ a _ _ => a

/-- The comparator `build_recursively` passes to `sort_by` on the chosen
axis: `Less` iff the first center coordinate is strictly smaller, `Equal`
iff the two coordinates are equal, `Greater` otherwise. -/
def centerCmp (axis : Axis) (a b : Object) : Ordering :=
  let proj : Bounds3 → ℚ := fun bb =>
    match axis with
    | Axis.X => bb.center.x
    | Axis.Y => bb.center.y
    | Axis.Z => bb.center.z
    | Axis.Nil => 0
  let o1 := proj a.getBounds
  let o2 := proj b.getBounds
  if o1 < o2 then Ordering.lt else if o1 = o2 then Ordering.eq else Ordering.gt

/-- `BVH::build_recursively`.  The source recursion has no structural
measure (and, as claim C7 records, diverges on an empty list), so the
embedding carries an explicit fuel; `none` models non-termination (fuel
exhausted) or a panic (`Axis::Nil`).  Rust's `sort_by` is a stable sort by
the comparator; `List.mergeSort` with `le a b := centerCmp axis a b ≠ .gt`
is the stable sort of the same total preorder. -/
def buildRecursively : ℕ → List Object → Option BVHTree
  | 0, _ => none
  | fuel + 1, primitives =>
    match primitives with
    | [obj] => some (BVHTree.leaf obj.getBounds obj.getArea obj)
    | [a, b] => do
      let left ← buildRecursively fuel [a]
      let right ← buildRecursively fuel [b]
      pure (BVHTree.node (Bounds3.union2 left.bounds right.bounds)
        (left.area + right.area) left right)
    | _ => do
      let maxBounds := primitives.foldl (fun acc o => acc.union o.getBounds) Bounds3.zero
      let maxAxis := maxBounds.maxExtentAxis
      if maxAxis = Axis.Nil then none
      else
        let sorted := primitives.mergeSort (fun a b => centerCmp maxAxis a b ≠ Ordering.gt)
        let middleIndex := sorted.length / 2
        let leftHalf := sorted.take middleIndex
        let rightHalf := sorted.drop middleIndex
        let left ← buildRecursively fuel leftHalf
        let right ← buildRecursively fuel rightHalf
        pure (BVHTree.node (Bounds3.union2 left.bounds right.bounds)
          (left.area + right.area) left right)

/-- The `BVH` struct: the primitive list and the optional built root. -/
structure BVH where
  primitives : List Object
  root : Option BVHTree

/-- `BVH::intersect_internal`: reject on the node's slab test, delegate to
the primitive at a leaf, recurse into both children at an interior node and
keep the left result exactly when its distance is strictly smaller. -/
def BVHTree.intersectNode : BVHTree → Ray → Intersection
  | .leaf b _ obj, ray =>
    if ¬b.intersect ray then Intersection.new else obj.intersect ray
  | .node b _ l r, ray =>
    if ¬b.intersect ray then Intersection.new
    else
      let left := l.intersectNode ray
      let right := r.intersectNode ray
      if left.distance < right.distance then left else right

/-- `BVH::intersect`: a miss when no root was built. -/
def BVH.intersect (b : BVH) (ray : Ray) : Intersection :=
  match b.root with
  | none => Intersection.new
  | some t => t.intersectNode ray

/-- `BVH::get_sample`: descend by comparing the running scalar against the
left child's area; at a leaf take the primitive's sample and multiply its
pdf by the leaf's cached area. -/
def BVHTree.getSample : BVHTree → ℚ → ℚ → ℚ → Intersection × ℚ
  | .leaf _ a obj, _, sx, y =>
    let s := obj.sample sx y
    (s.1, s.2 * a)
  | .node _ _ l r, p, sx, y =>
    if p < l.area then l.getSample p sx y else r.getSample (p - l.area) sx y

/-- `BVH::sample`: `squ` stands for the `sqrt(u)` the source computes from
its uniform draw (`p = sqrt(u) * root.area`); the final pdf is the leaf
pdf divided by the root area.  `none` models the `unwrap` panic on an
unbuilt root. -/
def BVH.sample (b : BVH) (squ sx y : ℚ) : Option (Intersection × ℚ) :=
  match b.root with
  | none => none
  | some t =>
    let p := squ * t.area
    let s := t.getSample p sx y
    some (s.1, s.2 / t.area)

/-- `Model` from `path_tracing/src/mesh/model.rs`: the fields the light
sampler reads (`area`, `material`, `bvh`).  `Model::new` always builds the
BVH; other field states are representable, so the theorems name the built
state explicitly. -/
structure Model where
  area : ℚ
  material : Material
  bvh : Option BVH

/-- `Model::get_area`. -/
def Model.getArea (m : Model) : ℚ := m.area

/-- `Model::sample`: an unbuilt `bvh` yields `(Intersection::new(), 0.0)`;
otherwise the BVH sample is taken and `inter.emit` is set to the model
material's emission before returning. -/
def Model.sample (m : Model) (squ sx y : ℚ) : Option (Intersection × ℚ) :=
  match m.bvh with
  | none => some (Intersection.new, 0)
  | some b =>
    (b.sample squ sx y).map fun s => ({ s.1 with emit := m.material.getEmission }, s.2)

/-- The sum the first loop of `Scene::sample_light` computes: total area of
the models whose material has emission. -/
def totalEmitArea (models : List Model) : ℚ :=
  models.foldl (fun acc m => if m.material.hasEmission then acc + m.getArea else acc) 0

/-- The second loop of `Scene::sample_light`: walk the emissive models
accumulating area and return the first one whose running sum reaches `p`;
`none` models the `panic!("impossible")` fall-through. -/
def selectLight : List Model → ℚ → ℚ → Option Model
  | [], _, _ => none
  | m :: rest, acc, p =>
    if m.material.hasEmission then
      if acc + m.getArea ≥ p then some m else selectLight rest (acc + m.getArea) p
    else selectLight rest acc p

/-- The `Scene` fields that the light-sampling claims read. -/
structure Scene where
  models : List Model

/-- `Scene::sample_light`: `u` is the uniform draw for the model selection
(`p = u * emit_area_sum`), `squ`, `sx`, `y` are the draws consumed by the
selected model's `Model::sample` as above. -/
def Scene.sampleLight (s : Scene) (u squ sx y : ℚ) : Option (Intersection × ℚ) :=
  let p := u * totalEmitArea s.models
  match selectLight s.models 0 p with
  | none => none
  | some m => m.sample squ sx y

/-- The distance-minimum combiner `if left.distance < right.distance {
left } else { right }` of the BVH traversal: keeps the strictly closer
record, preferring the second on ties. -/
def keepCloser (a b : Intersection) : Intersection :=
  if a.distance < b.distance then a else b

/-- The reference linear scan of claim C2 (spec §8 test C), modelled from
the spec: intersect every primitive in turn and keep the hit of minimum
distance, starting from the sentinel miss.  Ties keep the later primitive,
matching the `if left.distance < right.distance { left } else { right }`
tie-break of the BVH traversal. -/
def linearScan (objs : List Object) (ray : Ray) : Intersection :=
  objs.foldl (fun best o => keepCloser best (o.intersect ray)) Intersection.new

/-- The primitives of a BVH subtree in left-to-right leaf order. -/
def BVHTree.flatten : BVHTree → List Object
  | .leaf _ _ obj => [obj]
  | .node _ _ l r => l.flatten ++ r.flatten

/-- Every node of the subtree passes its slab test against `ray`. -/
def BVHTree.allBoundsAccept : BVHTree → Ray → Bool
  | .leaf b _ _, ray => b.intersect ray
  | .node b _ l r, ray => b.intersect ray && l.allBoundsAccept ray && r.allBoundsAccept ray

/-- The intersection a primitive reports is either the sentinel miss or
carries a distance strictly below the `f32::MAX` sentinel.  (True of every
geometric hit the program can represent; needed because the fold over the
sentinel works by distance comparison.) -/
def BVHTree.finiteHits : BVHTree → Ray → Prop
  | .leaf _ _ obj, ray =>
    obj.intersect ray = Intersection.new ∨ (obj.intersect ray).distance < f32Max
  | .node _ _ l r, ray => l.finiteHits ray ∧ r.finiteHits ray

/-- The `Shape` trait of the ray marchers
(`ray_marching{,_wgpu}/src/sdf/mod.rs`), embedded as the one method the
evaluator consumes: the signed distance function.  The concrete variants
(Sphere, Cube, CubeFrame, Torus, …) compute Euclidean norms, which are
irrational in general; they reach the evaluator only through this trait
object, and the concrete shapes used in witnesses below are exact SDFs
expressible in `ℚ` (axis-aligned half-spaces and constants). -/
structure Shape where
  sdf : Vec3 → ℚ

/-- `ShapeOpType`.  The `ray_marching_wgpu` enum; the CPU `ray_marching`
crate has the same enum minus `SmoothUnion`, so its chains simply never
carry that variant. -/
inductive ShapeOpType where
  | Nop
  | Union
  | Subtraction
  | Intersection
  | SmoothUnion
deriving DecidableEq, Repr

/-- `lerp` from `ray_marching_wgpu/src/math/mod.rs`: `x * (1 - a) + y * a`. -/
def lerp (x y a : ℚ) : ℚ := x * (1 - a) + y * a

/-- `f64::clamp(v, lo, hi)`. -/
def ratClamp (v lo hi : ℚ) : ℚ := if v < lo then lo else if v > hi then hi else v

/-- `ShapeOp::op_sdf` (identical tables in both crates up to the missing
`SmoothUnion` variant): Union `min(a,b)`, Subtraction `max(a,-b)`,
Intersection `max(a,b)`, SmoothUnion with `k = 1` the clamped-lerp blend.
`Nop` panics in the source; it is modelled by `0` and every theorem below
evaluates chains whose combining positions are `Nop`-free, where the arm is
unreachable. -/
def opSdf (sdfA : ℚ) (op : ShapeOpType) (sdfB : ℚ) : ℚ :=
  match op with
  | ShapeOpType.Union => min sdfA sdfB
  | ShapeOpType.Subtraction => max sdfA (-sdfB)
  | ShapeOpType.Intersection => max sdfA sdfB
  | ShapeOpType.SmoothUnion =>
    let k : ℚ := 1
    let h := ratClamp (1/2 + 1/2 * (sdfB - sdfA) / k) 0 1
    lerp sdfB sdfA h - k * h * (1 - h)
  | ShapeOpType.Nop => 0

/-- One node of a CSG chain after the head: its shape and its op.  The
source links `ShapeOp` nodes through `next: Option<&ShapeOp>`; the cons
list of the tail nodes is that chain, flattened. -/
structure ShapeOpNode where
  shape : Shape
  op : ShapeOpType

/-- A `ShapeOp` chain: head shape, head op, and the tail nodes in `next`
order. -/
structure ShapeOp where
  shape : Shape
  op : ShapeOpType
  next : List ShapeOpNode

/-- `ShapeOp::shape_sdf` of the CPU crate (`ray_marching/src/sdf/mod.rs`):
the loop combines with `&self.op` — the HEAD node's op — at every step. -/
def ShapeOp.shapeSdfRM (c : ShapeOp) (p : Vec3) : ℚ :=
  c.next.foldl (fun acc n => opSdf acc c.op (n.shape.sdf p)) (c.shape.sdf p)

/-- `ShapeOp::shape_sdf` of the wgpu crate
(`ray_marching_wgpu/src/sdf/mod.rs`): the loop keeps a `cur` pointer that
advances, so node `i+1`'s distance is combined using node `i`'s op. -/
def ShapeOp.shapeSdfWgpu (c : ShapeOp) (p : Vec3) : ℚ :=
  (c.next.foldl
    (fun st n => (opSdf st.1 st.2 (n.shape.sdf p), n.op))
    (c.shape.sdf p, c.op)).1

/-- Modelled from the claim (spec §4.4): the left fold that starts with the
head shape's distance and combines each successive node's distance using
the op carried at the current fold position, which then advances to that
node's op. -/
def chainFoldSpec (p : Vec3) : ℚ → ShapeOpType → List ShapeOpNode → ℚ
  | acc, _, [] => acc
  | acc, op, n :: rest => chainFoldSpec p (opSdf acc op (n.shape.sdf p)) n.op rest

/-- The spec-side chain distance: `chainFoldSpec` from the head. -/
def ShapeOp.specFold (c : ShapeOp) (p : Vec3) : ℚ :=
  chainFoldSpec p (c.shape.sdf p) c.op c.next

/-- `HitResult` from the ray marchers; `shape_op` holds (a copy of) the
root chain reference. -/
structure HitResult where
  distance : ℚ
  shapeOp : Option ShapeOp

/-- `HitResult::new`: `distance: f64::MAX`, no shape. -/
def HitResult.new : HitResult := { distance := f64Max, shapeOp := none }

/-- The `Scene` fields of the ray marchers that the marching claims read:
the list of root chains. -/
structure SDFScene where
  rootNodes : List ShapeOp

/-- `Scene::sdf` (identical in both crates): fold the roots keeping the
strictly smaller chain distance and the corresponding root; parametrised by
the crate's chain evaluator. -/
def SDFScene.sdfWith (s : SDFScene) (eval : ShapeOp → Vec3 → ℚ) (p : Vec3) : HitResult :=
  s.rootNodes.foldl
    (fun res node =>
      let dist := eval node p
      if dist < res.distance then { distance := dist, shapeOp := some node } else res)
    HitResult.new

/-- `MARCH_ACCURACY = 1e-3`. -/
def marchAccuracy : ℚ := 1 / 1000

/-- The loop body of `Scene::ray_march` (identical in both crates), with
the remaining iteration budget explicit: evaluate the scene distance at the
current `dist`, return a hit as soon as it is at most `MARCH_ACCURACY`,
otherwise advance by it and bail out to a miss once `dist` reaches
`max_dist`; a miss when the budget runs out. -/
def rayMarchLoop (sdfAt : Vec3 → HitResult) (ray : Ray) (maxDist : ℚ) :
    ℕ → ℚ → HitResult
  | 0, _ => HitResult.new
  | fuel + 1, dist =>
    let h := sdfAt (ray.eval dist)
    if h.distance ≤ marchAccuracy then { distance := dist, shapeOp := h.shapeOp }
    else if dist + h.distance ≥ maxDist then HitResult.new
    else rayMarchLoop sdfAt ray maxDist fuel (dist + h.distance)

/-- `Scene::ray_march` with `max_steps = 300`, starting at `dist = 0.0`,
parametrised by the crate's chain evaluator. -/
def SDFScene.rayMarchWith (s : SDFScene) (eval : ShapeOp → Vec3 → ℚ)
    (ray : Ray) (maxDist : ℚ) : HitResult :=
  rayMarchLoop (s.sdfWith eval) ray maxDist 300 0

/-- The marched parameter sequence: `marchT sdfAt ray t0 k` is the `dist`
value the loop holds at step `k` when started at `t0`; each step advances
by the scene distance at the current point. -/
def marchT (sdfAt : Vec3 → HitResult) (ray : Ray) : ℚ → ℕ → ℚ
  | t0, 0 => t0
  | t0, k + 1 => marchT sdfAt ray (t0 + (sdfAt (ray.eval t0)).distance) k

/-- The scene distance seen at step `k` of the march started at `t0`. -/
def marchD (sdfAt : Vec3 → HitResult) (ray : Ray) (t0 : ℚ) (k : ℕ) : ℚ :=
  (sdfAt (ray.eval (marchT sdfAt ray t0 k))).distance

/-- Step `k` of the march neither hits (distance above the accuracy) nor
leaves the budget (the advanced `dist` stays below `max_dist`). -/
def marchContinues (sdfAt : Vec3 → HitResult) (ray : Ray) (maxDist t0 : ℚ) (k : ℕ) : Prop :=
  marchD sdfAt ray t0 k > marchAccuracy ∧ marchT sdfAt ray t0 (k + 1) < maxDist

/-- `BVH::build` (the embedding threads the fuel of `buildRecursively`
through): replace the root by the recursively built tree over the stored
primitives. -/
def BVH.build (b : BVH) (fuel : ℕ) : BVH :=
  { b with root := buildRecursively fuel b.primitives }

/-- Modelled from the spec (§4.1) for claim C6: the guarded slab test.
For each axis, if `|d_i| ≤ ε` the ray is treated as parallel to the slab
and rejected when the origin coordinate lies outside `[min_i, max_i]`
(contributing no parameter constraint otherwise); a non-parallel axis
contributes the swapped pair `((p_min-o)/d, (p_max-o)/d)`.  The result of
one axis: `none` = reject, `some none` = parallel and inside, `some (some
(enter, exit))` = constraint. -/
def slabAxisSpec (minC maxC o d : ℚ) : Option (Option (ℚ × ℚ)) :=
  if |d| ≤ f64Epsilon then
    if o < minC ∨ o > maxC then none else some none
  else
    let t1 := (minC - o) / d
    let t2 := (maxC - o) / d
    some (some (if t1 ≤ t2 then (t1, t2) else (t2, t1)))

/-- Modelled from the spec (§4.1) for claim C6: combine the three axes;
hit iff no axis rejects and `t_exit ≥ max(t_enter, 0)` over the axes that
constrain the parameter. -/
def slabTestSpec (b : Bounds3) (ray : Ray) : Bool :=
  match slabAxisSpec b.pMin.x b.pMax.x ray.origin.x ray.direction.x,
        slabAxisSpec b.pMin.y b.pMax.y ray.origin.y ray.direction.y,
        slabAxisSpec b.pMin.z b.pMax.z ray.origin.z ray.direction.z with
  | some cx, some cy, some cz =>
    match [cx, cy, cz].filterMap id with
    | [] => true
    | c :: rest =>
      let tEnterS := rest.foldl (fun m c2 => max m c2.1) c.1
      let tExitS := rest.foldl (fun m c2 => min m c2.2) c.2
      tExitS ≥ max tEnterS 0
  | _, _, _ => false

/-- Modelled from the claim C5 wording: Möller–Trumbore as one flat guard —
a miss when the ray faces the front side, the determinant is small, the
barycentric coordinates leave the triangle, or the parameter is
nonpositive; otherwise the hit record with distance `t`, point `o + t*d`,
the cached face normal, the material and the owning handle. -/
def triangleIntersectSpec (t : Triangle) (ray : Ray) : Intersection :=
  if ray.direction.dot t.normal > 0 ∨ |t.detMT ray| < f64Epsilon ∨
      t.uMT ray < 0 ∨ t.uMT ray > 1 ∨ t.vMT ray < 0 ∨ t.uMT ray + t.vMT ray > 1 ∨
      t.tMT ray ≤ 0 then
    Intersection.new
  else t.hitRecord ray

/-- Every leaf of the subtree is a triangle leaf as `build_recursively`
creates it: the object is a triangle's `Arc<dyn Object>` view, the cached
leaf area is that triangle's area, and the area is nonzero. -/
def BVHTree.triLeaves : BVHTree → Prop
  | .leaf _ a obj => (∃ tr : Triangle, obj = tr.toObject ∧ a = tr.area) ∧ a ≠ 0
  | .node _ _ l r => l.triLeaves ∧ r.triLeaves

/-- Every leaf object of the subtree is some triangle's `Arc<dyn Object>`
view (as `Model::load` always arranges). -/
def BVHTree.triObjs : BVHTree → Prop
  | .leaf _ _ obj => ∃ tr : Triangle, obj = tr.toObject
  | .node _ _ l r => l.triObjs ∧ r.triObjs

/-- `Triangle::intersect` computes exactly the flat-guard Möller–Trumbore
description of claim C5 (helper shared by several claims). -/
theorem Triangle.intersect_eq_spec (t : Triangle) (ray : Ray) :
    t.intersect ray = triangleIntersectSpec t ray := by
  unfold Triangle.intersect triangleIntersectSpec
  by_cases c1 : ray.direction.dot t.normal > 0
  · rw [if_pos c1, if_pos (Or.inl c1)]
  · rw [if_neg c1]
    by_cases c2 : |t.detMT ray| < f64Epsilon
    · rw [if_pos c2, if_pos (Or.inr (Or.inl c2))]
    · rw [if_neg c2]
      by_cases c3 : t.uMT ray < 0 ∨ t.uMT ray > 1
      · have hc : ray.direction.dot t.normal > 0 ∨ |t.detMT ray| < f64Epsilon ∨
            t.uMT ray < 0 ∨ t.uMT ray > 1 ∨ t.vMT ray < 0 ∨
            t.uMT ray + t.vMT ray > 1 ∨ t.tMT ray ≤ 0 := by
          rcases c3 with h | h
          · exact Or.inr (Or.inr (Or.inl h))
          · exact Or.inr (Or.inr (Or.inr (Or.inl h)))
        rw [if_pos c3, if_pos hc]
      · rw [if_neg c3]
        by_cases c4 : t.vMT ray < 0 ∨ t.uMT ray + t.vMT ray > 1
        · have hc : ray.direction.dot t.normal > 0 ∨ |t.detMT ray| < f64Epsilon ∨
              t.uMT ray < 0 ∨ t.uMT ray > 1 ∨ t.vMT ray < 0 ∨
              t.uMT ray + t.vMT ray > 1 ∨ t.tMT ray ≤ 0 := by
            rcases c4 with h | h
            · exact Or.inr (Or.inr (Or.inr (Or.inr (Or.inl h))))
            · exact Or.inr (Or.inr (Or.inr (Or.inr (Or.inr (Or.inl h)))))
          rw [if_pos c4, if_pos hc]
        · rw [if_neg c4]
          rcases not_or.mp c3 with ⟨hA, hB⟩
          rcases not_or.mp c4 with ⟨hC, hD⟩
          by_cases c5 : t.tMT ray > 0
          · have hcn : ¬(ray.direction.dot t.normal > 0 ∨ |t.detMT ray| < f64Epsilon ∨
                t.uMT ray < 0 ∨ t.uMT ray > 1 ∨ t.vMT ray < 0 ∨
                t.uMT ray + t.vMT ray > 1 ∨ t.tMT ray ≤ 0) := by
              rintro (h | h | h | h | h | h | h)
              · exact c1 h
              · exact c2 h
              · exact hA h
              · exact hB h
              · exact hC h
              · exact hD h
              · exact absurd c5 (not_lt.mpr h)
            rw [if_pos c5, if_neg hcn]
          · have hc : ray.direction.dot t.normal > 0 ∨ |t.detMT ray| < f64Epsilon ∨
                t.uMT ray < 0 ∨ t.uMT ray > 1 ∨ t.vMT ray < 0 ∨
                t.uMT ray + t.vMT ray > 1 ∨ t.tMT ray ≤ 0 :=
              Or.inr (Or.inr (Or.inr (Or.inr (Or.inr (Or.inr (le_of_not_lt c5))))))
            rw [if_neg c5, if_pos hc]

/-- Every miss path of `Triangle::intersect` returns `Intersection::new()`. -/
theorem Triangle.intersect_miss_eq_new (t : Triangle) (ray : Ray)
    (h : (t.intersect ray).hit = false) : t.intersect ray = Intersection.new := by
  rw [Triangle.intersect_eq_spec] at h ⊢
  revert h
  unfold triangleIntersectSpec
  split_ifs <;> intro h <;> simp_all [Triangle.hitRecord]

/-- Every miss of the BVH traversal over triangle leaves is the sentinel. -/
theorem BVHTree.intersectNode_miss_eq_new (t : BVHTree) (ray : Ray) (ht : t.triObjs)
    (h : (t.intersectNode ray).hit = false) : t.intersectNode ray = Intersection.new := by
  induction t with
  | leaf b a obj =>
    obtain ⟨tr, rfl⟩ := ht
    by_cases hb : b.intersect ray
    · simp only [BVHTree.intersectNode, hb, not_true, if_false, ite_false,
        Triangle.toObject] at h ⊢
      exact Triangle.intersect_miss_eq_new tr ray h
    · simp [BVHTree.intersectNode, hb]
  | node b a l r ihl ihr =>
    obtain ⟨hl, hr⟩ := ht
    by_cases hb : b.intersect ray
    · by_cases hc : (l.intersectNode ray).distance < (r.intersectNode ray).distance
      · simp only [BVHTree.intersectNode, hb, not_true, ite_false, hc, ite_true] at h ⊢
        exact ihl hl h
      · simp only [BVHTree.intersectNode, hb, not_true, ite_false, hc] at h ⊢
        exact ihr hr h
    · simp [BVHTree.intersectNode, hb]

/-- A plain non-emissive material for concrete instances. -/
def mat0 : Material := ⟨⟨1/2, 1/2, 1/2⟩, ⟨0, 0, 0⟩⟩

/-- A concrete unit right triangle in the z = 0 plane (area 1/2, axis-aligned
cross product (0,0,1), so the stored area is exact). -/
def triT10 : Triangle := ⟨0, ⟨0, 0, 0⟩, ⟨1, 0, 0⟩, ⟨0, 1, 0⟩, 1/2, mat0⟩

/-- A ray looking along +z, into the back face of `triT10`. -/
def rayT10 : Ray := ⟨⟨1/4, 1/4, -1⟩, ⟨0, 0, 1⟩⟩

/-- C10, counterexample: the fresh `Intersection` is a miss whose distance
field is the finite value `f32::MAX` — a rational exceeded by `2^128` — so
the distance does not read as positive infinity (IEEE `+∞` compares above
every finite float, in particular above `f32::MAX`). -/
theorem sentinel_distance_is_finite :
    Intersection.new.hit = false ∧ Intersection.new.distance = f32Max ∧
      f32Max < 2 ^ 128 := by
  refine ⟨rfl, rfl, ?_⟩
  norm_num [f32Max]

/-- C10, amended: every `Intersection` whose `hit` flag is false that the
intersect routines return — the fresh value, every `Triangle::intersect`
miss, and every miss of the BVH traversal over triangle leaves (and of
`BVH::intersect` without a built root) — is exactly `Intersection::new()`,
whose sentinel distance is `f32::MAX`, the largest finite f32, not `+∞`. -/
theorem miss_intersections_are_sentinel :
    (∀ (t : Triangle) (ray : Ray), (t.intersect ray).hit = false →
      t.intersect ray = Intersection.new) ∧
    (∀ (b : BVH) (tree : BVHTree) (ray : Ray), b.root = some tree → tree.triObjs →
      (b.intersect ray).hit = false → b.intersect ray = Intersection.new) ∧
    (∀ (b : BVH) (ray : Ray), b.root = none → b.intersect ray = Intersection.new) ∧
    Intersection.new.distance = f32Max := by
  refine ⟨Triangle.intersect_miss_eq_new, ?_, ?_, rfl⟩
  · intro b tree ray hroot htri hmiss
    have hb : b.intersect ray = tree.intersectNode ray := by
      unfold BVH.intersect
      rw [hroot]
    rw [hb] at hmiss ⊢
    exact BVHTree.intersectNode_miss_eq_new tree ray htri hmiss
  · intro b ray hroot
    unfold BVH.intersect
    rw [hroot]

/-- C10, witness: the backface-culled miss on the concrete triangle is the
sentinel value. -/
theorem miss_intersections_are_sentinel_witness :
    Triangle.intersect triT10 rayT10 = Intersection.new :=
  miss_intersections_are_sentinel.1 triT10 rayT10 (by
    norm_num [Triangle.intersect, Triangle.normal, Triangle.e1, Triangle.e2,
      Vec3.cross, Vec3.dot, Vec3.sub, triT10, rayT10, Intersection.new])

/-- The concrete AABB with equal x- and y-extents, both exceeding the
z-extent. -/
def bC8 : Bounds3 := ⟨⟨0, 0, 0⟩, ⟨1, 1, 0⟩⟩

/-- C8, counterexample: on a box whose x-extent equals its y-extent and
both exceed the z-extent, `max_extent_axis` returns `Axis::Y`, not
`Axis::X` as the claim states (the first branch requires `d.x > d.y`
strictly). -/
theorem max_extent_axis_xy_tie_prefers_y :
    bC8.diagonal.x = bC8.diagonal.y ∧ bC8.diagonal.y > bC8.diagonal.z ∧
      bC8.maxExtentAxis = Axis.Y ∧ Axis.Y ≠ Axis.X := by
  refine ⟨?_, ?_, ?_, fun h => Axis.noConfusion h⟩ <;>
    norm_num [bC8, Bounds3.diagonal, Bounds3.maxExtentAxis, Vec3.sub]

/-- C8, amended: `max_extent_axis` picks X only when the x-extent strictly
exceeds both others (so an X-versus-Y tie above z resolves to Y, and a
Y-versus-Z tie resolves to Z), and the center sort comparator used by the
BVH build returns `Equal` whenever the two centers coincide (preserving
stable positions). -/
theorem max_extent_axis_characterization :
    (∀ b : Bounds3,
      (b.maxExtentAxis = Axis.X ↔ b.diagonal.x > b.diagonal.y ∧ b.diagonal.x > b.diagonal.z) ∧
      (b.maxExtentAxis = Axis.Y ↔
        ¬(b.diagonal.x > b.diagonal.y ∧ b.diagonal.x > b.diagonal.z) ∧
          b.diagonal.y > b.diagonal.z) ∧
      (b.maxExtentAxis = Axis.Z ↔
        ¬(b.diagonal.x > b.diagonal.y ∧ b.diagonal.x > b.diagonal.z) ∧
          ¬b.diagonal.y > b.diagonal.z)) ∧
    (∀ (axis : Axis) (a b : Object), a.getBounds.center = b.getBounds.center →
      centerCmp axis a b = Ordering.eq) := by
  constructor
  · intro b
    by_cases h1 : b.diagonal.x > b.diagonal.y ∧ b.diagonal.x > b.diagonal.z
    · simp [Bounds3.maxExtentAxis, h1]
    · by_cases h2 : b.diagonal.y > b.diagonal.z
      · simp [Bounds3.maxExtentAxis, h1, h2]
      · simp [Bounds3.maxExtentAxis, h1, h2]
  · intro axis a b h
    unfold centerCmp
    cases axis <;> simp [h]

/-- C8, witness: the comparator maps an object paired with itself to
`Equal` on the X axis. -/
theorem max_extent_axis_characterization_witness :
    centerCmp Axis.X triT10.toObject triT10.toObject = Ordering.eq :=
  max_extent_axis_characterization.2 Axis.X triT10.toObject triT10.toObject rfl

/-- C6, amended: the acceptance condition of `Bounds3::intersect` is
exactly `t_exit ≥ max(t_enter, 0)` for the ε-perturbed entry/exit values
the code computes (there is no parallel-axis guard; the reciprocal is
always of `direction + ε`). -/
theorem bounds_intersect_max_formulation (b : Bounds3) (ray : Ray) :
    Bounds3.intersect b ray = true ↔
      Bounds3.tExit b ray ≥ max (Bounds3.tEnter b ray) 0 := by
  simp [Bounds3.intersect, ge_iff_le, max_le_iff]

/-- The box of the parallel-guard counterexample: x ∈ [0,1], y ∈ [0,2^53],
z ∈ [0,2^105]. -/
def bC6 : Bounds3 := ⟨⟨0, 0, 0⟩, ⟨1, 2 ^ 53, 2 ^ 105⟩⟩

/-- A ray parallel to the x and y slabs (both direction components are 0)
whose origin x-coordinate −2^52 lies far outside [0,1]. -/
def rayC6 : Ray := ⟨⟨-(2 ^ 52), 1, 0⟩, ⟨0, 0, 1⟩⟩

/-- C6, counterexample: the spec's guarded slab test rejects `rayC6`
against `bC6` (parallel x-axis, origin outside the slab), but the code
accepts it: `1/(0 + ε)` turns the parallel axis into a huge but satisfiable
parameter window instead of rejecting. -/
theorem bounds_intersect_ignores_parallel_guard :
    Bounds3.intersect bC6 rayC6 = true ∧ slabTestSpec bC6 rayC6 = false := by
  constructor
  · norm_num [Bounds3.intersect, Bounds3.tExit, Bounds3.tEnter, Bounds3.tMinV,
      Bounds3.tMaxV, Bounds3.invDir, Vec3.hmul, Vec3.sub, bC6, rayC6, f64Epsilon]
  · norm_num [slabTestSpec, slabAxisSpec, bC6, rayC6, f64Epsilon]

/-- C5: `Triangle::intersect` follows Möller–Trumbore exactly as the claim
lists it — a miss when `ray.direction · normal > 0`, when `|det| < ε`,
when `u < 0` or `u > 1`, when `v < 0` or `u + v > 1`, or when `t ≤ 0`;
otherwise a hit with distance `t`, point `o + t·d`, the triangle's cached
face normal, and the material and owning-primitive handle set. -/
theorem moller_trumbore_exact (t : Triangle) (ray : Ray) :
    t.intersect ray = triangleIntersectSpec t ray :=
  Triangle.intersect_eq_spec t ray

/-- The tail fold of the wgpu `shape_sdf` agrees with the spec fold: the
accumulator pair carries the op of the node the `cur` pointer rests on. -/
theorem shapeSdf_fold_eq_spec (p : Vec3) (rest : List ShapeOpNode) :
    ∀ (acc : ℚ) (op : ShapeOpType),
      (rest.foldl (fun st n => (opSdf st.1 st.2 (n.shape.sdf p), n.op)) (acc, op)).1 =
        chainFoldSpec p acc op rest := by
  induction rest with
  | nil => intro acc op; rfl
  | cons n rest ih =>
    intro acc op
    simpa [List.foldl_cons, chainFoldSpec] using ih (opSdf acc op (n.shape.sdf p)) n.op

/-- C3, amended: the wgpu `ShapeOp::shape_sdf` is the claimed left fold,
advancing the combining op to the current node; the CPU `ray_marching`
`shape_sdf` instead combines every successive node with the HEAD node's op
(`&self.op` never advances), so in a chain of three or more nodes whose
first and second nodes carry different ops it is the first — not the
second — node's op that combines the third node's distance. -/
theorem shape_sdf_fold_ops (c : ShapeOp) (p : Vec3) :
    c.shapeSdfWgpu p = c.specFold p ∧
      c.shapeSdfRM p =
        c.next.foldl (fun acc n => opSdf acc c.op (n.shape.sdf p)) (c.shape.sdf p) := by
  exact ⟨shapeSdf_fold_eq_spec p c.next (c.shape.sdf p) c.op, rfl⟩

/-- The three-node counterexample chain: head op `Union`, second node op
`Intersection`; the constant-offset plane SDFs evaluate at the origin to
1, 2 and 5. -/
def chainC3 : ShapeOp :=
  { shape := ⟨fun q => q.x + 1⟩
    op := ShapeOpType.Union
    next := [⟨⟨fun q => q.x + 2⟩, ShapeOpType.Intersection⟩,
             ⟨⟨fun q => q.x + 5⟩, ShapeOpType.Union⟩] }

/-- C3, counterexample: on the three-node chain whose first and second ops
differ, the CPU evaluator combines the third distance with the head's
`Union` (giving `min(min(1,2),5) = 1`) while the claimed fold uses the
second node's `Intersection` (giving `max(min(1,2),5) = 5`). -/
theorem shape_sdf_head_op_counterexample :
    chainC3.shapeSdfRM ⟨0, 0, 0⟩ = 1 ∧ chainC3.specFold ⟨0, 0, 0⟩ = 5 ∧ (1 : ℚ) ≠ 5 := by
  refine ⟨?_, ?_, by norm_num⟩
  · norm_num [chainC3, ShapeOp.shapeSdfRM, opSdf]
  · norm_num [chainC3, ShapeOp.specFold, chainFoldSpec, opSdf]

/-- `max_extent_axis` never returns `Axis::Nil`, so the `panic!` arm of the
build is unreachable. -/
theorem maxExtentAxis_ne_nil (b : Bounds3) : b.maxExtentAxis ≠ Axis.Nil := by
  unfold Bounds3.maxExtentAxis
  split_ifs <;> simp

/-- `build_recursively` never returns on the empty primitive list, with any
iteration budget: the empty list falls into the interior branch, is split
at index 0 into two empty halves, and recurses on an empty list again. -/
theorem buildRecursively_empty (fuel : ℕ) : buildRecursively fuel [] = none := by
  induction fuel with
  | zero => rfl
  | succ fuel ih =>
    simp [buildRecursively, ih, maxExtentAxis_ne_nil]

/-- With fuel at least the list length, `build_recursively` succeeds on
every non-empty list: each recursive call receives a strictly shorter
non-empty list. -/
theorem buildRecursively_isSome :
    ∀ (fuel : ℕ) (prims : List Object), prims.length ≤ fuel → prims ≠ [] →
      (buildRecursively fuel prims).isSome = true := by
  intro fuel
  induction fuel with
  | zero =>
    intro prims hlen hne
    exact absurd (List.eq_nil_of_length_eq_zero (Nat.le_zero.mp hlen)) hne
  | succ fuel ih =>
    intro prims hlen hne
    match prims with
    | [a] => simp [buildRecursively]
    | [a, b] =>
      have h1 : (buildRecursively fuel [a]).isSome = true := by
        refine ih [a] ?_ (by simp)
        simp at hlen ⊢
        omega
      have h2 : (buildRecursively fuel [b]).isSome = true := by
        refine ih [b] ?_ (by simp)
        simp at hlen ⊢
        omega
      obtain ⟨l, hl⟩ := Option.isSome_iff_exists.mp h1
      obtain ⟨r, hr⟩ := Option.isSome_iff_exists.mp h2
      simp [buildRecursively, hl, hr]
    | a :: b :: c :: rest =>
      have hn : (a :: b :: c :: rest).length = rest.length + 3 := by simp
      simp only [buildRecursively]
      set axis := ((a :: b :: c :: rest).foldl
        (fun acc o => acc.union o.getBounds) Bounds3.zero).maxExtentAxis with haxis
      have hne2 : ¬axis = Axis.Nil := maxExtentAxis_ne_nil _
      rw [if_neg hne2]
      set sorted := (a :: b :: c :: rest).mergeSort
        (fun x y => centerCmp axis x y ≠ Ordering.gt) with hsorted
      have hslen : sorted.length = rest.length + 3 := by
        rw [hsorted, List.length_mergeSort]
        exact hn
      have hlt : (sorted.take (sorted.length / 2)).length ≤ fuel ∧
          (sorted.take (sorted.length / 2)).length ≠ 0 := by
        rw [List.length_take]
        rw [hn] at hlen
        constructor <;> [skip; skip] <;> (rw [hslen]; omega)
      have hrt : (sorted.drop (sorted.length / 2)).length ≤ fuel ∧
          (sorted.drop (sorted.length / 2)).length ≠ 0 := by
        rw [List.length_drop]
        rw [hn] at hlen
        constructor <;> (rw [hslen]; omega)
      have h1 := ih (sorted.take (sorted.length / 2)) hlt.1
        (by intro hnil; exact hlt.2 (by rw [hnil]; rfl))
      have h2 := ih (sorted.drop (sorted.length / 2)) hrt.1
        (by intro hnil; exact hrt.2 (by rw [hnil]; rfl))
      obtain ⟨l, hl⟩ := Option.isSome_iff_exists.mp h1
      obtain ⟨r, hr⟩ := Option.isSome_iff_exists.mp h2
      simp [hl, hr]

/-- C7: `BVH::build` terminates on every non-empty primitive list (fuel
equal to the list length suffices, because every recursive call receives a
strictly shorter non-empty list), but `build_recursively` on an empty list
never returns: no finite budget makes it produce a tree, because the empty
list falls into the interior branch and recurses on two empty halves
forever. -/
theorem bvh_build_termination :
    (∀ prims : List Object, prims ≠ [] →
      ((BVH.mk prims none).build prims.length).root.isSome = true) ∧
    (∀ fuel : ℕ, ((BVH.mk [] none).build fuel).root = none) := by
  constructor
  · intro prims hne
    exact buildRecursively_isSome prims.length prims le_rfl hne
  · intro fuel
    exact buildRecursively_empty fuel

/-- C7, witness: building over one concrete primitive succeeds with fuel 1. -/
theorem bvh_build_termination_witness :
    ((BVH.mk [triT10.toObject] none).build 1).root.isSome = true :=
  bvh_build_termination.1 [triT10.toObject] (by simp)

/-- An intersection record that folds correctly against the sentinel:
either it is the sentinel itself or its distance is strictly below the
`f32::MAX` sentinel (true of every geometric hit the program represents). -/
def missOrFinite (i : Intersection) : Prop :=
  i = Intersection.new ∨ i.distance < f32Max

theorem missOrFinite_new : missOrFinite Intersection.new := Or.inl rfl

theorem keepCloser_assoc (a b c : Intersection) :
    keepCloser (keepCloser a b) c = keepCloser a (keepCloser b c) := by
  unfold keepCloser
  split_ifs <;> first | rfl | (exfalso; linarith)

theorem keepCloser_new_left (x : Intersection) (hx : missOrFinite x) :
    keepCloser Intersection.new x = x := by
  rcases hx with rfl | h
  · unfold keepCloser
    rw [if_neg (lt_irrefl _)]
  · unfold keepCloser
    rw [if_neg]
    show ¬(f32Max < x.distance)
    exact not_lt.mpr h.le

theorem keepCloser_new_right (x : Intersection) (hx : missOrFinite x) :
    keepCloser x Intersection.new = x := by
  rcases hx with rfl | h
  · unfold keepCloser
    rw [if_neg (lt_irrefl _)]
  · unfold keepCloser
    rw [if_pos]
    show x.distance < f32Max
    exact h

theorem missOrFinite_keepCloser {a b : Intersection} (ha : missOrFinite a)
    (hb : missOrFinite b) : missOrFinite (keepCloser a b) := by
  unfold keepCloser
  split_ifs <;> assumption

theorem missOrFinite_linearScan (ray : Ray) :
    ∀ (xs : List Object) (s : Intersection), missOrFinite s →
      (∀ o ∈ xs, missOrFinite (o.intersect ray)) →
      missOrFinite (xs.foldl (fun best o => keepCloser best (o.intersect ray)) s) := by
  intro xs
  induction xs with
  | nil => intro s hs _; exact hs
  | cons x xs ih =>
    intro s hs hall
    exact ih (keepCloser s (x.intersect ray))
      (missOrFinite_keepCloser hs (hall x (List.mem_cons_self x xs)))
      fun o ho => hall o (List.mem_cons_of_mem x ho)

/-- Folding the scan from any start value factors through `keepCloser`. -/
theorem linearScan_from (ray : Ray) :
    ∀ (xs : List Object) (s : Intersection), missOrFinite s →
      (∀ o ∈ xs, missOrFinite (o.intersect ray)) →
      xs.foldl (fun best o => keepCloser best (o.intersect ray)) s =
        keepCloser s (linearScan xs ray) := by
  intro xs
  induction xs with
  | nil =>
    intro s hs _
    exact (keepCloser_new_right s hs).symm
  | cons x xs ih =>
    intro s hs hall
    have hx : missOrFinite (x.intersect ray) := hall x (List.mem_cons_self x xs)
    have htail : ∀ o ∈ xs, missOrFinite (o.intersect ray) :=
      fun o ho => hall o (List.mem_cons_of_mem x ho)
    have hstep : List.foldl (fun best o => keepCloser best (o.intersect ray))
        (keepCloser s (x.intersect ray)) xs =
        keepCloser (keepCloser s (x.intersect ray)) (linearScan xs ray) :=
      ih (keepCloser s (x.intersect ray)) (missOrFinite_keepCloser hs hx) htail
    have hscan : linearScan (x :: xs) ray =
        keepCloser (x.intersect ray) (linearScan xs ray) := by
      unfold linearScan
      rw [List.foldl_cons, keepCloser_new_left (x.intersect ray) hx]
      exact ih (x.intersect ray) hx htail
    rw [List.foldl_cons, hstep, keepCloser_assoc, hscan]

theorem finiteHits_flatten (ray : Ray) :
    ∀ t : BVHTree, t.finiteHits ray → ∀ o ∈ t.flatten, missOrFinite (o.intersect ray) := by
  intro t
  induction t with
  | leaf b a obj =>
    intro hf o ho
    simp only [BVHTree.flatten, List.mem_singleton] at ho
    subst ho
    exact hf
  | node b a l r ihl ihr =>
    intro hf o ho
    simp only [BVHTree.flatten, List.mem_append] at ho
    rcases ho with ho | ho
    · exact ihl hf.1 o ho
    · exact ihr hf.2 o ho

/-- When every node's slab test accepts the ray and every hit distance is
below the sentinel, the BVH traversal computes exactly the linear scan of
its leaves. -/
theorem intersectNode_eq_linearScan (ray : Ray) :
    ∀ t : BVHTree, t.allBoundsAccept ray = true → t.finiteHits ray →
      t.intersectNode ray = linearScan t.flatten ray := by
  intro t
  induction t with
  | leaf b a obj =>
    intro hacc hfin
    have hb : b.intersect ray = true := hacc
    show (if ¬b.intersect ray then Intersection.new else obj.intersect ray) = _
    rw [hb]
    simp only [not_true, ite_false, if_false]
    unfold linearScan BVHTree.flatten
    rw [List.foldl_cons, keepCloser_new_left (obj.intersect ray) hfin, List.foldl_nil]
  | node b a l r ihl ihr =>
    intro hacc hfin
    simp only [BVHTree.allBoundsAccept, Bool.and_eq_true] at hacc
    obtain ⟨⟨hb, hl⟩, hr⟩ := hacc
    have hleft := ihl hl hfin.1
    have hright := ihr hr hfin.2
    have hstep : BVHTree.intersectNode (BVHTree.node b a l r) ray =
        keepCloser (l.intersectNode ray) (r.intersectNode ray) := by
      show (if ¬b.intersect ray then Intersection.new else _) = _
      rw [hb]
      simp only [not_true, ite_false, if_false]
      rfl
    rw [hstep, hleft, hright]
    show keepCloser (linearScan l.flatten ray) (linearScan r.flatten ray) =
      linearScan (l.flatten ++ r.flatten) ray
    unfold linearScan
    rw [List.foldl_append]
    exact (linearScan_from ray r.flatten _
      (missOrFinite_linearScan ray l.flatten Intersection.new missOrFinite_new
        (finiteHits_flatten ray l hfin.1))
      (finiteHits_flatten ray r hfin.2)).symm

/-- C2, amended: for a BVH with a built root, `BVH::intersect` agrees with
the linear scan of the tree's leaves (minimum distance, ties to the later
leaf in left-to-right order) for every ray that every node's slab test
accepts and whose per-primitive hit distances stay below the `f32::MAX`
sentinel; without those provisos the agreement fails (see the
counterexample: the ε-perturbed slab test can reject a ray that hits a
contained primitive). -/
theorem bvh_intersect_eq_linear_scan (b : BVH) (tree : BVHTree) (ray : Ray)
    (hroot : b.root = some tree)
    (hacc : tree.allBoundsAccept ray = true)
    (hfin : tree.finiteHits ray) :
    b.intersect ray = linearScan tree.flatten ray := by
  have hb : b.intersect ray = tree.intersectNode ray := by
    unfold BVH.intersect
    rw [hroot]
  rw [hb]
  exact intersectNode_eq_linearScan ray tree hacc hfin

/-- The second triangle of the C2 witness scene: the unit right triangle
two units behind `triT10` along −z. -/
def triC2W : Triangle := ⟨2, ⟨0, 0, -2⟩, ⟨1, 0, -2⟩, ⟨0, 1, -2⟩, 1/2, mat0⟩

/-- The witness ray: down the −z axis through both triangles. -/
def rayC2W : Ray := ⟨⟨1/4, 1/4, 1⟩, ⟨0, 0, -1⟩⟩

/-- The two-leaf tree over the witness triangles (bounds and areas cached
as `build_recursively` computes them). -/
def treeC2W : BVHTree :=
  BVHTree.node
    (Bounds3.union2 triT10.getBounds triC2W.getBounds) 1
    (BVHTree.leaf triT10.getBounds (1/2) triT10.toObject)
    (BVHTree.leaf triC2W.getBounds (1/2) triC2W.toObject)

/-- The witness BVH holding `treeC2W` as its built root. -/
def bvhC2W : BVH := ⟨[triT10.toObject, triC2W.toObject], some treeC2W⟩

/-- C2, witness: on the concrete two-triangle scene whose three slab tests
all accept the ray, the BVH result equals the linear scan. -/
theorem bvh_intersect_eq_linear_scan_witness :
    bvhC2W.intersect rayC2W = linearScan treeC2W.flatten rayC2W :=
  bvh_intersect_eq_linear_scan bvhC2W treeC2W rayC2W rfl
    (by
      norm_num [treeC2W, BVHTree.allBoundsAccept, Bounds3.intersect, Bounds3.tEnter,
        Bounds3.tExit, Bounds3.tMinV, Bounds3.tMaxV, Bounds3.invDir, Vec3.hmul, Vec3.sub,
        Bounds3.union2, Triangle.getBounds, Bounds3.fromPoints, Bounds3.unionPoint,
        Vec3.vmin, Vec3.vmax, min_def, max_def, triT10, triC2W, rayC2W, f64Epsilon])
    (by
      refine ⟨Or.inr ?_, Or.inr ?_⟩ <;>
        norm_num [treeC2W, Triangle.toObject, Triangle.intersect, Triangle.hitRecord,
          Triangle.normal, Triangle.e1, Triangle.e2, Triangle.pvecMT, Triangle.detMT,
          Triangle.tvecMT, Triangle.uMT, Triangle.qvecMT, Triangle.vMT, Triangle.tMT,
          Vec3.cross, Vec3.dot, Vec3.sub, Vec3.add, Vec3.smul, triT10, triC2W, rayC2W,
          f64Epsilon, f32Max, Intersection.new])

/-- The ε-pathology triangle: it spans the x = 0 plane, so a ray with a
direction x-component of −ε/2 can hit it far away while the ε-perturbed
slab test rejects its own bounding box. -/
def triC2 : Triangle := ⟨7, ⟨0, 0, 9⟩, ⟨0, 4, 9⟩, ⟨0, 0, 13⟩, 8, mat0⟩

/-- The pathological ray: direction (−ε/2, 0, 0) with ε = `f64::EPSILON`. -/
def rayC2 : Ray := ⟨⟨1, 1/4, 10⟩, ⟨-(1 / 2 ^ 53), 0, 0⟩⟩

/-- The single-leaf BVH that `build_recursively` produces over `triC2`. -/
def bvhC2 : BVH := ⟨[triC2.toObject], buildRecursively 1 [triC2.toObject]⟩

/-- C2, counterexample: on the single-triangle BVH, the traversal reports a
miss (the ε-perturbed slab test rejects the leaf box) while the linear scan
finds the genuine hit at distance 2^53 — BVH and linear scan disagree on a
built BVH over a non-empty primitive list. -/
theorem bvh_intersect_misses_linear_scan_hit :
    (bvhC2.intersect rayC2).hit = false ∧
      (linearScan [triC2.toObject] rayC2).hit = true ∧
      (linearScan [triC2.toObject] rayC2).distance = 2 ^ 53 := by
  refine ⟨?_, ?_, ?_⟩
  · norm_num [bvhC2, buildRecursively, BVH.intersect, BVHTree.intersectNode,
      Bounds3.intersect, Bounds3.tEnter, Bounds3.tExit, Bounds3.tMinV, Bounds3.tMaxV,
      Bounds3.invDir, Vec3.hmul, Vec3.sub, Triangle.toObject, Triangle.getBounds,
      Bounds3.fromPoints, Bounds3.unionPoint, Vec3.vmin, Vec3.vmax, min_def, max_def,
      triC2, rayC2, f64Epsilon, Intersection.new]
  · norm_num [linearScan, keepCloser, Triangle.toObject, Triangle.intersect,
      Triangle.hitRecord, Triangle.normal, Triangle.e1, Triangle.e2, Triangle.pvecMT,
      Triangle.detMT, Triangle.tvecMT, Triangle.uMT, Triangle.qvecMT, Triangle.vMT,
      Triangle.tMT, Vec3.cross, Vec3.dot, Vec3.sub, Vec3.add, Vec3.smul, triC2, rayC2,
      f64Epsilon, f32Max, Intersection.new, abs_of_pos]
  · norm_num [linearScan, keepCloser, Triangle.toObject, Triangle.intersect,
      Triangle.hitRecord, Triangle.normal, Triangle.e1, Triangle.e2, Triangle.pvecMT,
      Triangle.detMT, Triangle.tvecMT, Triangle.uMT, Triangle.qvecMT, Triangle.vMT,
      Triangle.tMT, Vec3.cross, Vec3.dot, Vec3.sub, Vec3.add, Vec3.smul, triC2, rayC2,
      f64Epsilon, f32Max, Intersection.new, abs_of_pos]

/-- Over triangle leaves (leaf area = triangle area ≠ 0), `get_sample`
returns pdf exactly 1: the triangle pdf `1/area` times the leaf's cached
area. -/
theorem getSample_pdf_one :
    ∀ (t : BVHTree), t.triLeaves → ∀ (p sx y : ℚ), (t.getSample p sx y).2 = 1 := by
  intro t
  induction t with
  | leaf b a obj =>
    intro ht p sx y
    obtain ⟨⟨tr, hobj, harea⟩, hne⟩ := ht
    subst hobj
    show (tr.sample sx y).2 * a = 1
    rw [harea]
    show 1 / tr.area * tr.area = 1
    rw [harea] at hne
    exact one_div_mul_cancel hne
  | node b a l r ihl ihr =>
    intro ht p sx y
    obtain ⟨hl, hr⟩ := ht
    show (if p < l.area then l.getSample p sx y else r.getSample (p - l.area) sx y).2 = 1
    split_ifs
    · exact ihl hl p sx y
    · exact ihr hr (p - l.area) sx y

/-- `BVH::sample` over a built root with triangle leaves: the returned pdf
is `1 / root.area`, independent of the draw. -/
theorem BVH.sample_pdf (b : BVH) (t : BVHTree) (squ sx y : ℚ)
    (hroot : b.root = some t) (ht : t.triLeaves) :
    b.sample squ sx y = some ((t.getSample (squ * t.area) sx y).1, 1 / t.area) := by
  unfold BVH.sample
  rw [hroot]
  have hp := getSample_pdf_one t ht (squ * t.area) sx y
  simp [hp]

/-- `Model::sample` over a built BVH: the BVH sample with `emit` set to the
model material's emission, pdf `1 / root.area`. -/
theorem Model.sample_eq (m : Model) (b : BVH) (t : BVHTree) (squ sx y : ℚ)
    (hb : m.bvh = some b) (hroot : b.root = some t) (ht : t.triLeaves) :
    m.sample squ sx y =
      some ({ (t.getSample (squ * t.area) sx y).1 with emit := m.material.getEmission },
        1 / t.area) := by
  unfold Model.sample
  rw [hb]
  dsimp only
  rw [BVH.sample_pdf b t squ sx y hroot ht]
  rfl

/-- `Scene::sample_light` is the selected model's sample. -/
theorem Scene.sampleLight_eq (s : Scene) (u squ sx y : ℚ) (m : Model)
    (hsel : selectLight s.models 0 (u * totalEmitArea s.models) = some m) :
    s.sampleLight u squ sx y = m.sample squ sx y := by
  unfold Scene.sampleLight
  dsimp only
  rw [hsel]

/-- C1, amended: `Scene::sample_light` selects an emissive model by the
area-threshold walk and returns that model's `Model::sample` unchanged, so
the pdf it returns is `1 / (selected model's BVH root area)` — the
reciprocal of the selected model's own emissive area, not `1 / (sum of the
areas of all emissive models)`; the two coincide only when the scene has a
single emissive model (see the counterexample for the general failure). -/
theorem sample_light_pdf_selected_model (s : Scene) (u squ sx y : ℚ) (m : Model)
    (b : BVH) (t : BVHTree)
    (hsel : selectLight s.models 0 (u * totalEmitArea s.models) = some m)
    (hb : m.bvh = some b) (hroot : b.root = some t) (ht : t.triLeaves) :
    s.sampleLight u squ sx y =
      some ({ (t.getSample (squ * t.area) sx y).1 with emit := m.material.getEmission },
        1 / t.area) := by
  rw [Scene.sampleLight_eq s u squ sx y m hsel]
  exact Model.sample_eq m b t squ sx y hb hroot ht

/-- The emissive material of the concrete sampling scenes. -/
def matE : Material := ⟨⟨1, 1, 1⟩, ⟨10, 10, 10⟩⟩

/-- An emissive triangle of area 1. -/
def triA1 : Triangle := ⟨3, ⟨0, 0, 0⟩, ⟨2, 0, 0⟩, ⟨0, 1, 0⟩, 1, matE⟩

/-- An emissive triangle of area 2. -/
def triA2 : Triangle := ⟨4, ⟨0, 0, 0⟩, ⟨2, 0, 0⟩, ⟨0, 2, 0⟩, 2, matE⟩

/-- The first emissive model (area 1) with its single-leaf BVH. -/
def m1C1 : Model :=
  ⟨1, matE, some ⟨[triA1.toObject], some (BVHTree.leaf triA1.getBounds 1 triA1.toObject)⟩⟩

/-- The second emissive model (area 2) with its single-leaf BVH. -/
def m2C1 : Model :=
  ⟨2, matE, some ⟨[triA2.toObject], some (BVHTree.leaf triA2.getBounds 2 triA2.toObject)⟩⟩

/-- The two-emissive-model scene: total emissive area 3. -/
def sceneC1 : Scene := ⟨[m1C1, m2C1]⟩

/-- C1, counterexample: in the two-emissive-model scene with total area 3,
the draw u = 1/3 selects the first model (area 1) and the pdf returned —
and divided by in the direct-lighting term — is 1, not 1/3 = 1/(sum of
emissive areas) as the claim states. -/
theorem sample_light_pdf_not_total_counterexample :
    totalEmitArea sceneC1.models = 3 ∧
      (sceneC1.sampleLight (1/3) (1/2) (1/2) (1/2)).map Prod.snd = some 1 ∧
      (1 : ℚ) ≠ 1 / 3 := by
  refine ⟨?_, ?_, by norm_num⟩
  · norm_num [sceneC1, totalEmitArea, m1C1, m2C1, Model.getArea, Material.hasEmission,
      Vec3.sqLength, matE, f64Epsilon]
  · norm_num [sceneC1, Scene.sampleLight, totalEmitArea, selectLight, Model.getArea,
      Material.hasEmission, Vec3.sqLength, matE, f64Epsilon, m1C1, m2C1, Model.sample,
      BVH.sample, BVHTree.getSample, BVHTree.area, Triangle.toObject, Triangle.sample,
      triA1, Material.getEmission]

/-- C1, witness for the amended pdf law: on the same scene the full result
is the sampled intersection with pdf `1/1`, the selected model's root
area reciprocal. -/
theorem sample_light_pdf_selected_model_witness :
    sceneC1.sampleLight (1/3) (1/2) (1/2) (1/2) =
      some ({ ((BVHTree.leaf triA1.getBounds 1 triA1.toObject).getSample
          ((1/2) * (BVHTree.leaf triA1.getBounds 1 triA1.toObject).area) (1/2) (1/2)).1 with
            emit := m1C1.material.getEmission },
        1 / (BVHTree.leaf triA1.getBounds 1 triA1.toObject).area) :=
  sample_light_pdf_selected_model sceneC1 (1/3) (1/2) (1/2) (1/2) m1C1 _ _
    (by
      norm_num [sceneC1, totalEmitArea, selectLight, Model.getArea, Material.hasEmission,
        Vec3.sqLength, matE, f64Epsilon, m1C1, m2C1])
    rfl rfl
    (by
      refine ⟨⟨triA1, rfl, rfl⟩, by norm_num⟩)

/-- C9: every intersection `Scene::sample_light` returns through a loaded
model (one whose BVH is built, as `Model::new` always arranges) has its
`emit` field set to the selected model's material emission before being
returned. -/
theorem sample_light_sets_emit (s : Scene) (u squ sx y : ℚ) (m : Model) (b : BVH)
    (t : BVHTree) (i : Intersection) (pdf : ℚ)
    (hsel : selectLight s.models 0 (u * totalEmitArea s.models) = some m)
    (hb : m.bvh = some b) (hroot : b.root = some t)
    (hres : s.sampleLight u squ sx y = some (i, pdf)) :
    i.emit = m.material.getEmission := by
  rw [Scene.sampleLight_eq s u squ sx y m hsel] at hres
  unfold Model.sample at hres
  rw [hb] at hres
  dsimp only at hres
  unfold BVH.sample at hres
  rw [hroot] at hres
  dsimp only at hres
  injection hres with hres2
  injection hres2 with h1 h2
  rw [← h1]

/-- C9, witness: the concrete sampled intersection carries the emissive
material's emission (10,10,10). -/
theorem sample_light_sets_emit_witness :
    ({ Intersection.new with
        coords := ⟨1/2, 1/4, 0⟩
        normal := ⟨0, 0, 2⟩
        emit := ⟨10, 10, 10⟩ } : Intersection).emit = m1C1.material.getEmission :=
  sample_light_sets_emit sceneC1 (1/3) (1/2) (1/2) (1/2) m1C1 _ _ _ 1
    (by
      norm_num [sceneC1, totalEmitArea, selectLight, Model.getArea, Material.hasEmission,
        Vec3.sqLength, matE, f64Epsilon, m1C1, m2C1])
    rfl rfl
    (by
      norm_num [sceneC1, Scene.sampleLight, totalEmitArea, selectLight, Model.getArea,
        Material.hasEmission, Vec3.sqLength, matE, f64Epsilon, m1C1, m2C1, Model.sample,
        BVH.sample, BVHTree.getSample, BVHTree.area, Triangle.toObject, Triangle.sample,
        triA1, Material.getEmission, Intersection.new, Vec3.smul, Vec3.add, Vec3.zero,
        Triangle.normal, Triangle.e1, Triangle.e2, Vec3.cross, Vec3.sub])

/-- Unfolding the march sequence at the far end: the next parameter is the
current one advanced by the scene distance there. -/
theorem marchT_succ (sdfAt : Vec3 → HitResult) (ray : Ray) :
    ∀ (k : ℕ) (t0 : ℚ),
      marchT sdfAt ray t0 (k + 1) =
        marchT sdfAt ray t0 k + (sdfAt (ray.eval (marchT sdfAt ray t0 k))).distance := by
  intro k
  induction k with
  | zero => intro t0; rfl
  | succ k ih =>
    intro t0
    show marchT sdfAt ray (t0 + (sdfAt (ray.eval t0)).distance) (k + 1) = _
    rw [ih (t0 + (sdfAt (ray.eval t0)).distance)]
    rfl

/-- Running the loop for `k + fuel` steps from `t0` is running it for
`fuel` steps from the `k`-th march parameter, provided the march neither
hits nor leaves the budget during the first `k` steps. -/
theorem rayMarchLoop_shift (sdfAt : Vec3 → HitResult) (ray : Ray) (maxDist : ℚ) :
    ∀ (k fuel : ℕ) (t0 : ℚ),
      (∀ j, j < k → marchContinues sdfAt ray maxDist t0 j) →
      rayMarchLoop sdfAt ray maxDist (k + fuel) t0 =
        rayMarchLoop sdfAt ray maxDist fuel (marchT sdfAt ray t0 k) := by
  intro k
  induction k with
  | zero =>
    intro fuel t0 _
    rw [Nat.zero_add]
    rfl
  | succ k ih =>
    intro fuel t0 hc
    have h0 := hc 0 (Nat.succ_pos k)
    have hd : (sdfAt (ray.eval t0)).distance > marchAccuracy := h0.1
    have hm : t0 + (sdfAt (ray.eval t0)).distance < maxDist := h0.2
    have hstep : rayMarchLoop sdfAt ray maxDist (k + 1 + fuel) t0 =
        rayMarchLoop sdfAt ray maxDist (k + fuel)
          (t0 + (sdfAt (ray.eval t0)).distance) := by
      rw [Nat.succ_add]
      show (if (sdfAt (ray.eval t0)).distance ≤ marchAccuracy then _
        else if t0 + (sdfAt (ray.eval t0)).distance ≥ maxDist then HitResult.new
        else rayMarchLoop sdfAt ray maxDist (k + fuel)
          (t0 + (sdfAt (ray.eval t0)).distance)) = _
      rw [if_neg (not_le.mpr hd), if_neg (not_le.mpr hm)]
    rw [hstep]
    exact ih fuel (t0 + (sdfAt (ray.eval t0)).distance) fun j hj => hc (j + 1) (by omega)

/-- C4: `Scene::ray_march` (the identical loop of both crates, over the
crate's chain evaluator) performs at most 300 steps from `t = 0`: writing
`t_k` for the march parameters (each step advances by the scene distance
there), it returns a hit at distance `t_k` carrying the argmin root's
ShapeOp for the first `k < 300` with `d ≤ 1e-3`; it returns a miss as soon
as the advanced parameter reaches `max_dist` first; and it returns a miss
when all 300 steps continue. -/
theorem ray_march_characterization (s : SDFScene) (ev : ShapeOp → Vec3 → ℚ)
    (ray : Ray) (maxDist : ℚ) :
    (∀ k : ℕ, k < 300 → (∀ j, j < k → marchContinues (s.sdfWith ev) ray maxDist 0 j) →
      marchD (s.sdfWith ev) ray 0 k ≤ marchAccuracy →
      s.rayMarchWith ev ray maxDist =
        { distance := marchT (s.sdfWith ev) ray 0 k
          shapeOp := ((s.sdfWith ev) (ray.eval (marchT (s.sdfWith ev) ray 0 k))).shapeOp }) ∧
    (∀ k : ℕ, k < 300 → (∀ j, j < k → marchContinues (s.sdfWith ev) ray maxDist 0 j) →
      marchD (s.sdfWith ev) ray 0 k > marchAccuracy →
      marchT (s.sdfWith ev) ray 0 (k + 1) ≥ maxDist →
      s.rayMarchWith ev ray maxDist = HitResult.new) ∧
    ((∀ j, j < 300 → marchContinues (s.sdfWith ev) ray maxDist 0 j) →
      s.rayMarchWith ev ray maxDist = HitResult.new) := by
  refine ⟨?_, ?_, ?_⟩
  · intro k hk hcont hhit
    unfold SDFScene.rayMarchWith
    have h300 : (300 : ℕ) = k + (300 - k) := by omega
    rw [h300, rayMarchLoop_shift (s.sdfWith ev) ray maxDist k (300 - k) 0 hcont]
    obtain ⟨m, hm⟩ : ∃ m, 300 - k = m + 1 := ⟨300 - k - 1, by omega⟩
    rw [hm]
    unfold marchD at hhit
    show (if (s.sdfWith ev (ray.eval (marchT (s.sdfWith ev) ray 0 k))).distance ≤
        marchAccuracy then _ else _) = _
    rw [if_pos hhit]
  · intro k hk hcont hd hstop
    unfold SDFScene.rayMarchWith
    have h300 : (300 : ℕ) = k + (300 - k) := by omega
    rw [h300, rayMarchLoop_shift (s.sdfWith ev) ray maxDist k (300 - k) 0 hcont]
    obtain ⟨m, hm⟩ : ∃ m, 300 - k = m + 1 := ⟨300 - k - 1, by omega⟩
    rw [hm]
    unfold marchD at hd
    rw [marchT_succ] at hstop
    show (if (s.sdfWith ev (ray.eval (marchT (s.sdfWith ev) ray 0 k))).distance ≤
        marchAccuracy then _
      else if marchT (s.sdfWith ev) ray 0 k +
          (s.sdfWith ev (ray.eval (marchT (s.sdfWith ev) ray 0 k))).distance ≥ maxDist then
        HitResult.new
      else _) = _
    rw [if_neg (not_le.mpr hd), if_pos hstop]
  · intro hcont
    unfold SDFScene.rayMarchWith
    have h300 : (300 : ℕ) = 300 + 0 := rfl
    rw [h300, rayMarchLoop_shift (s.sdfWith ev) ray maxDist 300 0 0 hcont]
    rfl

/-- The witness chain: a single root leaf (op `Nop`, no tail) whose shape
is the exact half-space SDF `5 - x`. -/
def chainC4 : ShapeOp := ⟨⟨fun q => 5 - q.x⟩, ShapeOpType.Nop, []⟩

/-- The witness SDF scene holding the single root. -/
def sceneC4 : SDFScene := ⟨[chainC4]⟩

/-- The witness ray: from the origin along +x; the surface lies at t = 5. -/
def rayC4 : Ray := ⟨⟨0, 0, 0⟩, ⟨1, 0, 0⟩⟩

/-- C4, witness: the march hits at step 1 with distance 5 and carries the
argmin root. -/
theorem ray_march_characterization_witness :
    sceneC4.rayMarchWith ShapeOp.shapeSdfWgpu rayC4 10 =
      { distance := marchT (sceneC4.sdfWith ShapeOp.shapeSdfWgpu) rayC4 0 1
        shapeOp := ((sceneC4.sdfWith ShapeOp.shapeSdfWgpu)
          (rayC4.eval (marchT (sceneC4.sdfWith ShapeOp.shapeSdfWgpu) rayC4 0 1))).shapeOp } :=
  (ray_march_characterization sceneC4 ShapeOp.shapeSdfWgpu rayC4 10).1 1 (by norm_num)
    (by
      intro j hj
      have hj0 : j = 0 := by omega
      subst hj0
      constructor
      · show marchD (sceneC4.sdfWith ShapeOp.shapeSdfWgpu) rayC4 0 0 > marchAccuracy
        norm_num [marchD, marchT, sceneC4, chainC4, SDFScene.sdfWith, HitResult.new,
          ShapeOp.shapeSdfWgpu, Ray.eval, rayC4, Vec3.add, Vec3.smul, marchAccuracy, f64Max]
      · show marchT (sceneC4.sdfWith ShapeOp.shapeSdfWgpu) rayC4 0 1 < 10
        norm_num [marchT, sceneC4, chainC4, SDFScene.sdfWith, HitResult.new,
          ShapeOp.shapeSdfWgpu, Ray.eval, rayC4, Vec3.add, Vec3.smul, f64Max])
    (by
      show marchD (sceneC4.sdfWith ShapeOp.shapeSdfWgpu) rayC4 0 1 ≤ marchAccuracy
      norm_num [marchD, marchT, sceneC4, chainC4, SDFScene.sdfWith, HitResult.new,
        ShapeOp.shapeSdfWgpu, Ray.eval, rayC4, Vec3.add, Vec3.smul, marchAccuracy, f64Max])
